import Mathlib

/-!
Verification of the TT-Tesseract Terminal repository (backend API in
`src/backend/app/{main,models}.py`, terminal dashboard in `src/tui/app.py`)
against its natural-language specification.

Shallow embedding conventions:
* Python `float` values are idealized as exact rationals (`ℚ`).
* Python `dict` payloads with possibly-missing keys become structures whose
  fields are `Option`s; a `data["k"]` access that would raise `KeyError`
  becomes an `Option` bind, and `data.get("k", d)` becomes `Option.getD`.
* A Python function that can raise an uncaught exception returns `Option`
  (`none` = uncaught exception).
* Terminal text styling (colors, rich markup) is carried as plain data;
  Python numeric display formatting (`:.2f`, `:,.0f`, ...) is presentation
  detail and where a rendering claim does not depend on it the formatter is
  abstracted as a function parameter.
-/

namespace Backend

/-- The `Trend` literal type of `src/backend/app/models.py`. -/
inductive Trend where
  | Up
  | Flat
  | Down
deriving DecidableEq, Repr

/-- One point of a stock price series (`StockPoint` in `models.py`). -/
structure StockPoint where
  date : String
  price : ℚ
deriving DecidableEq, Repr

/-- The validated series model (`StockSeries` in `models.py`). -/
structure StockSeries where
  one_month : List StockPoint
  six_month : List StockPoint
  one_year : List StockPoint
deriving DecidableEq, Repr

/-- A raw JSON series object as fed to `StockSeries.from_dict`: each of the
keys `"1M"`, `"6M"`, `"1Y"` may be absent (`none`). `oneM` stands for key
`"1M"`, `sixM` for `"6M"`, `oneY` for `"1Y"`. -/
structure RawSeries where
  oneM : Option (List StockPoint)
  sixM : Option (List StockPoint)
  oneY : Option (List StockPoint)
deriving DecidableEq, Repr

/-- `StockSeries.from_dict` in `models.py`: `data.get("1M", [])` etc. -/
def StockSeries.from_dict (data : RawSeries) : StockSeries :=
  { one_month := data.oneM.getD []
    six_month := data.sixM.getD []
    one_year := data.oneY.getD [] }

/-- A raw JSON stock object as fed to `Stock.from_dict`. Required scalar
fields are `Option`s because a Python `data["k"]` on a missing key raises;
`series` is read with `data.get("series", {})`. -/
structure RawStock where
  name : Option String
  ticker : Option String
  price : Option ℚ
  market_cap : Option String
  pe : Option ℚ
  trend : Option Trend
  daily_change_pct : Option ℚ
  series : Option RawSeries
deriving DecidableEq, Repr

/-- The validated stock model (`Stock` in `models.py`). -/
structure Stock where
  name : String
  ticker : String
  price : ℚ
  market_cap : String
  pe : ℚ
  trend : Trend
  daily_change_pct : ℚ
  series : StockSeries
deriving DecidableEq, Repr

/-- `Stock.from_dict` in `models.py`. Each `data["k"]` access is an `Option`
bind (raises, hence `none`, on a missing required key);
`data.get("series", {})` defaults to the empty dict, i.e. a `RawSeries`
with every key absent. -/
def Stock.from_dict (data : RawStock) : Option Stock := do
  let name ← data.name
  let ticker ← data.ticker
  let price ← data.price
  let market_cap ← data.market_cap
  let pe ← data.pe
  let trend ← data.trend
  let daily_change_pct ← data.daily_change_pct
  some
    { name := name
      ticker := ticker
      price := price
      market_cap := market_cap
      pe := pe
      trend := trend
      daily_change_pct := daily_change_pct
      series := StockSeries.from_dict (data.series.getD ⟨none, none, none⟩) }

/-- An HTTP response of the FastAPI backend: a JSON body with a status code,
or an HTTPException carrying a status code and a detail string. -/
inductive Response where
  | json (status : Nat) (body : Stock)
  | error (status : Nat) (detail : String)
deriving DecidableEq, Repr

/-- The `GET /api/stocks/\x7bticker\x7d` endpoint (`get_stock` in `main.py`):
scan the backing `STOCKS` list, return the first record whose `"ticker"`
equals the requested ticker (HTTP 200), else 404 "Stock not found".
`none` models an uncaught exception (a record missing a required key). -/
def get_stock (stocks : List RawStock) (ticker : String) : Option Response :=
  match stocks with
  | [] => some (.error 404 "Stock not found")
  | stock :: rest =>
    match stock.ticker with
    | none => none
    | some t =>
      if t = ticker then (Stock.from_dict stock).map (.json 200 ·)
      else get_stock rest ticker

/-- A raw stock record with every required scalar field present (the shape
of every record in the backing `STOCKS` data). -/
def wellFormed (s : RawStock) : Prop :=
  s.name.isSome ∧ s.ticker.isSome ∧ s.price.isSome ∧ s.market_cap.isSome ∧
    s.pe.isSome ∧ s.trend.isSome ∧ s.daily_change_pct.isSome

instance : DecidablePred wellFormed := fun s => by
  unfold wellFormed
  infer_instance

/-- On a well-formed record, `Stock.from_dict` succeeds and preserves the
ticker. -/
lemma from_dict_wellFormed (s : RawStock) (h : wellFormed s) :
    ∃ st : Stock, Stock.from_dict s = some st ∧ s.ticker = some st.ticker := by
  obtain ⟨hn, ht, hp, hm, hpe, htr, hd⟩ := h
  obtain ⟨n, hn⟩ := Option.isSome_iff_exists.mp hn
  obtain ⟨t, ht⟩ := Option.isSome_iff_exists.mp ht
  obtain ⟨p, hp⟩ := Option.isSome_iff_exists.mp hp
  obtain ⟨m, hm⟩ := Option.isSome_iff_exists.mp hm
  obtain ⟨pe, hpe⟩ := Option.isSome_iff_exists.mp hpe
  obtain ⟨tr, htr⟩ := Option.isSome_iff_exists.mp htr
  obtain ⟨d, hd⟩ := Option.isSome_iff_exists.mp hd
  refine ⟨{ name := n, ticker := t, price := p, market_cap := m, pe := pe,
            trend := tr, daily_change_pct := d,
            series := StockSeries.from_dict (s.series.getD ⟨none, none, none⟩) },
          ?_, ?_⟩
  · simp [Stock.from_dict, hn, ht, hp, hm, hpe, htr, hd]
  · simp [ht]

/-- A sample well-formed backing record used by witnesses. -/
def sampleReliance : RawStock :=
  { name := some "Reliance Industries"
    ticker := some "RELIANCE"
    price := some 2870
    market_cap := some "19.4L Cr"
    pe := some 28
    trend := some .Up
    daily_change_pct := some 1
    series := none }

end Backend

/-- C8: over any well-formed backing stock list, `GET /api/stocks/\x7bticker\x7d`
returns HTTP 200 with a record whose `ticker` equals the requested ticker
whenever some backing record carries that ticker, and returns HTTP 404 with
detail "Stock not found" whenever no backing record does; so it never
returns a record for an absent ticker nor a 404 for a present one. -/
theorem get_stock_present_200_absent_404
    (stocks : List Backend.RawStock) (ticker : String)
    (hwf : ∀ s ∈ stocks, Backend.wellFormed s) :
    ((∃ s ∈ stocks, s.ticker = some ticker) →
      ∃ st : Backend.Stock,
        Backend.get_stock stocks ticker = some (.json 200 st) ∧
          st.ticker = ticker) ∧
    ((∀ s ∈ stocks, s.ticker ≠ some ticker) →
      Backend.get_stock stocks ticker = some (.error 404 "Stock not found")) := by
  induction stocks with
  | nil =>
    refine ⟨?_, ?_⟩
    · rintro ⟨s, hs, -⟩
      exact absurd hs (List.not_mem_nil s)
    · intro _
      rfl
  | cons s rest ih =>
    have hs : Backend.wellFormed s := hwf s (List.mem_cons_self s rest)
    have hrest : ∀ x ∈ rest, Backend.wellFormed x := fun x hx =>
      hwf x (List.mem_cons_of_mem s hx)
    obtain ⟨st, hfd, hticker⟩ := Backend.from_dict_wellFormed s hs
    obtain ⟨ihp, iha⟩ := ih hrest
    refine ⟨?_, ?_⟩
    · rintro ⟨x, hx, hxt⟩
      by_cases heq : st.ticker = ticker
      · refine ⟨st, ?_, heq⟩
        simp [Backend.get_stock, hticker, hfd, heq]
      · have hxr : x ∈ rest := by
          rcases List.mem_cons.mp hx with h | h
          · exfalso
            apply heq
            rw [h] at hxt
            rw [hticker] at hxt
            exact (Option.some_injective _ hxt).symm ▸ rfl
          · exact h
        obtain ⟨st', h1, h2⟩ := ihp ⟨x, hxr, hxt⟩
        refine ⟨st', ?_, h2⟩
        simpa [Backend.get_stock, hticker, hfd, heq] using h1
    · intro habs
      have h1 : s.ticker ≠ some ticker := habs s (List.mem_cons_self s rest)
      have hne : st.ticker ≠ ticker := fun h => h1 (h ▸ hticker)
      have h2 := iha (fun x hx => habs x (List.mem_cons_of_mem s hx))
      simpa [Backend.get_stock, hticker, hfd, hne] using h2

/-- Witness for C8: on a concrete one-record backing list containing
RELIANCE, requesting "RELIANCE" yields HTTP 200 with a matching ticker. -/
theorem get_stock_present_200_absent_404_witness :
    ∃ st : Backend.Stock,
      Backend.get_stock [Backend.sampleReliance] "RELIANCE" =
          some (.json 200 st) ∧
        st.ticker = "RELIANCE" :=
  (get_stock_present_200_absent_404 [Backend.sampleReliance] "RELIANCE"
      (by decide)).1
    ⟨Backend.sampleReliance, by decide, by decide⟩

/-- C10: on any raw record whose required scalar fields are all present,
`Stock.from_dict` succeeds whatever the `series` entry looks like — a
missing `"series"` key and missing `"1M"`/`"6M"`/`"1Y"` keys each default
to the empty sequence — and in particular an absent `series` yields the
all-empty series. -/
theorem from_dict_total_on_required_fields
    (d : Backend.RawStock) (n t mc : String) (p pe dc : ℚ)
    (tr : Backend.Trend)
    (hn : d.name = some n) (ht : d.ticker = some t)
    (hp : d.price = some p) (hm : d.market_cap = some mc)
    (hpe : d.pe = some pe) (htr : d.trend = some tr)
    (hd : d.daily_change_pct = some dc) :
    Backend.Stock.from_dict d = some
      { name := n
        ticker := t
        price := p
        market_cap := mc
        pe := pe
        trend := tr
        daily_change_pct := dc
        series :=
          { one_month := ((d.series.getD ⟨none, none, none⟩).oneM).getD []
            six_month := ((d.series.getD ⟨none, none, none⟩).sixM).getD []
            one_year := ((d.series.getD ⟨none, none, none⟩).oneY).getD [] } } ∧
    (d.series = none →
      ∃ st : Backend.Stock,
        Backend.Stock.from_dict d = some st ∧
          st.series = ⟨[], [], []⟩) := by
  constructor
  · simp [Backend.Stock.from_dict, Backend.StockSeries.from_dict,
      hn, ht, hp, hm, hpe, htr, hd]
  · intro hser
    refine ⟨{ name := n, ticker := t, price := p, market_cap := mc, pe := pe,
              trend := tr, daily_change_pct := dc,
              series := ⟨[], [], []⟩ }, ?_, rfl⟩
    simp [Backend.Stock.from_dict, Backend.StockSeries.from_dict,
      hn, ht, hp, hm, hpe, htr, hd, hser, Option.getD]

/-- Witness for C10: `sampleReliance` (which has no series entry at all)
deserializes to a stock whose three series buckets are empty. -/
theorem from_dict_total_on_required_fields_witness :
    Backend.Stock.from_dict Backend.sampleReliance = some
      { name := "Reliance Industries"
        ticker := "RELIANCE"
        price := 2870
        market_cap := "19.4L Cr"
        pe := 28
        trend := .Up
        daily_change_pct := 1
        series := { one_month := [], six_month := [], one_year := [] } } :=
  (from_dict_total_on_required_fields Backend.sampleReliance
      "Reliance Industries" "RELIANCE" "19.4L Cr" 2870 28 1 .Up
      rfl rfl rfl rfl rfl rfl rfl).1

namespace Tui

/-- Python `int(x)`: truncation toward zero (floor for nonnegative
arguments, ceiling for negative ones). -/
def pyInt (q : ℚ) : ℤ := if 0 ≤ q then ⌊q⌋ else ⌈q⌉

/-- Python string indexing `s[i]`: a negative index counts from the end,
and an index out of range raises (`none`). -/
def pyStrIndex (s : List Char) (i : ℤ) : Option Char :=
  let j : ℤ := if i < 0 then i + s.length else i
  if 0 ≤ j then s.get? j.toNat else none

/-- Option-valued traversal: maps `f` over the list, failing as soon as
`f` fails (models a Python comprehension whose body may raise). -/
def traverseOpt {α β : Type} (f : α → Option β) : List α → Option (List β)
  | [] => some []
  | x :: xs => do
    let y ← f x
    let ys ← traverseOpt f xs
    some (y :: ys)

/-- The glyph ramp `" ▂▃▄▅▆▇█"` of `Sparkline.render` in `src/tui/app.py`
(8 glyphs: space is the lowest bucket). -/
def blocks : List Char := [' ', '▂', '▃', '▄', '▅', '▆', '▇', '█']

/-- Structured form of the `Text` produced by `Sparkline.render`: either
the fixed no-data placeholder line `"<label>: (no data)"`, or a chart line
holding the label, the joined glyph string and the min/max range shown in
the suffix (the `₹`/decimal formatting of the range is presentation). -/
inductive SparkRender where
  | noData (label : String)
  | chart (label : String) (line : String) (minVal maxVal : ℚ)
deriving DecidableEq, Repr

/-- The bucket-index derivation inside `Sparkline.render`: `none` on empty
input (where the code takes the placeholder branch instead), otherwise the
list `scaled` computed by
`int((value - min_val) / span * (len(blocks) - 1))` with
`span = max_val - min_val if max_val != min_val else 1`. -/
def sparkBuckets : List ℚ → Option (List ℤ)
  | [] => none
  | v :: vs =>
    let min_val := vs.foldl min v
    let max_val := vs.foldl max v
    let span := if max_val ≠ min_val then max_val - min_val else 1
    some ((v :: vs).map fun value =>
      pyInt ((value - min_val) / span * ((blocks.length : ℚ) - 1)))

/-- `Sparkline.render` of `src/tui/app.py`: empty values give the fixed
placeholder; otherwise each value is scaled into a bucket index and the
indices select glyphs from `blocks` (Python indexing, which would raise on
an out-of-range index — modelled by `none`). -/
def Sparkline.render (label : String) (values : List ℚ) : Option SparkRender :=
  match values with
  | [] => some (.noData label)
  | v :: vs =>
    let min_val := vs.foldl min v
    let max_val := vs.foldl max v
    let span := if max_val ≠ min_val then max_val - min_val else 1
    let scaled := (v :: vs).map fun value =>
      pyInt ((value - min_val) / span * ((blocks.length : ℚ) - 1))
    (traverseOpt (pyStrIndex blocks) scaled).map fun line =>
      .chart label (String.mk line) min_val max_val

/-- Glyph selected by an in-range bucket index (used to state theorems
about the glyph line without the partiality of Python indexing). -/
def glyphAt (i : ℤ) : Char := blocks.getD i.toNat ' '

/-- Bucket derivation following the specification's words instead of the
source: `scaled = round((value - min) / span * (bucket_count - 1))` with
the same `span` guard, for comparison with the source's `sparkBuckets`. -/
def sparkBucketsSpec : List ℚ → Option (List ℤ)
  | [] => none
  | v :: vs =>
    let min_val := vs.foldl min v
    let max_val := vs.foldl max v
    let span := if max_val ≠ min_val then max_val - min_val else 1
    some ((v :: vs).map fun value =>
      round ((value - min_val) / span * ((blocks.length : ℚ) - 1)))

lemma foldl_min_le_init (vs : List ℚ) : ∀ v : ℚ, vs.foldl min v ≤ v := by
  induction vs with
  | nil => intro v; exact le_refl v
  | cons y ys ih =>
    intro v
    calc (y :: ys).foldl min v = ys.foldl min (min v y) := rfl
    _ ≤ min v y := ih (min v y)
    _ ≤ v := min_le_left v y

lemma init_le_foldl_max (vs : List ℚ) : ∀ v : ℚ, v ≤ vs.foldl max v := by
  induction vs with
  | nil => intro v; exact le_refl v
  | cons y ys ih =>
    intro v
    calc v ≤ max v y := le_max_left v y
    _ ≤ ys.foldl max (max v y) := ih (max v y)
    _ = (y :: ys).foldl max v := rfl

lemma foldl_min_le_mem (vs : List ℚ) :
    ∀ v : ℚ, ∀ x ∈ v :: vs, vs.foldl min v ≤ x := by
  induction vs with
  | nil =>
    intro v x hx
    rcases List.mem_cons.mp hx with h | h
    · exact h ▸ le_refl v
    · exact absurd h (List.not_mem_nil x)
  | cons y ys ih =>
    intro v x hx
    rcases List.mem_cons.mp hx with h | h
    · subst h
      exact le_trans (le_trans (foldl_min_le_init ys (min x y)) (min_le_left x y)) (le_refl x)
    · rcases List.mem_cons.mp h with h' | h'
      · subst h'
        exact le_trans (foldl_min_le_init ys (min v x)) (min_le_right v x)
      · exact ih (min v y) x (List.mem_cons_of_mem _ h')

lemma mem_le_foldl_max (vs : List ℚ) :
    ∀ v : ℚ, ∀ x ∈ v :: vs, x ≤ vs.foldl max v := by
  induction vs with
  | nil =>
    intro v x hx
    rcases List.mem_cons.mp hx with h | h
    · exact h ▸ le_refl v
    · exact absurd h (List.not_mem_nil x)
  | cons y ys ih =>
    intro v x hx
    rcases List.mem_cons.mp hx with h | h
    · subst h
      exact le_trans (le_max_left x y) (init_le_foldl_max ys (max x y))
    · rcases List.mem_cons.mp h with h' | h'
      · subst h'
        exact le_trans (le_max_right v x) (init_le_foldl_max ys (max v x))
      · exact ih (max v y) x (List.mem_cons_of_mem _ h')

lemma pyInt_eq_floor {q : ℚ} (h : 0 ≤ q) : pyInt q = ⌊q⌋ := if_pos h

lemma pyInt_mono {a b : ℚ} (h : a ≤ b) : pyInt a ≤ pyInt b := by
  unfold pyInt
  by_cases ha : 0 ≤ a
  · rw [if_pos ha, if_pos (le_trans ha h)]
    exact Int.floor_le_floor h
  · by_cases hb : 0 ≤ b
    · rw [if_neg ha, if_pos hb]
      have h1 : ⌈a⌉ ≤ 0 :=
        Int.ceil_le.mpr (by exact_mod_cast le_of_lt (lt_of_not_le ha))
      have h2 : (0 : ℤ) ≤ ⌊b⌋ := Int.le_floor.mpr (by exact_mod_cast hb)
      omega
    · rw [if_neg ha, if_neg hb]
      exact Int.ceil_le_ceil h

lemma traverseOpt_eq_some_map {α β : Type} (f : α → Option β) (g : α → β)
    (l : List α) (h : ∀ x ∈ l, f x = some (g x)) :
    traverseOpt f l = some (l.map g) := by
  induction l with
  | nil => rfl
  | cons x xs ih =>
    have hx : f x = some (g x) := h x (List.mem_cons_self x xs)
    have hxs := ih fun y hy => h y (List.mem_cons_of_mem x hy)
    simp [traverseOpt, hx, hxs]

end Tui

namespace Tui

lemma blocks_len_sub_one : ((blocks.length : ℚ) - 1) = 7 := by
  norm_num [blocks]

lemma spark_span_pos (v : ℚ) (vs : List ℚ) :
    0 < (if vs.foldl max v ≠ vs.foldl min v
          then vs.foldl max v - vs.foldl min v else 1) := by
  by_cases h : vs.foldl max v ≠ vs.foldl min v
  · rw [if_pos h]
    have h1 : vs.foldl min v ≤ v := foldl_min_le_init vs v
    have h2 : v ≤ vs.foldl max v := init_le_foldl_max vs v
    have h3 : vs.foldl min v < vs.foldl max v :=
      lt_of_le_of_ne (le_trans h1 h2) (Ne.symm h)
    linarith
  · rw [if_neg h]
    norm_num

lemma spark_arg_bounds (v : ℚ) (vs : List ℚ) (x : ℚ) (hx : x ∈ v :: vs) :
    0 ≤ (x - vs.foldl min v) /
          (if vs.foldl max v ≠ vs.foldl min v
            then vs.foldl max v - vs.foldl min v else 1) *
          ((blocks.length : ℚ) - 1) ∧
      (x - vs.foldl min v) /
          (if vs.foldl max v ≠ vs.foldl min v
            then vs.foldl max v - vs.foldl min v else 1) *
          ((blocks.length : ℚ) - 1) ≤ 7 := by
  have hmn : vs.foldl min v ≤ x := foldl_min_le_mem vs v x hx
  have hmx : x ≤ vs.foldl max v := mem_le_foldl_max vs v x hx
  have hspan := spark_span_pos v vs
  rw [blocks_len_sub_one]
  constructor
  · exact mul_nonneg (div_nonneg (sub_nonneg.mpr hmn) (le_of_lt hspan))
      (by norm_num)
  · have hle : x - vs.foldl min v ≤
        (if vs.foldl max v ≠ vs.foldl min v
          then vs.foldl max v - vs.foldl min v else 1) := by
      by_cases h : vs.foldl max v ≠ vs.foldl min v
      · rw [if_pos h]
        exact sub_le_sub_right hmx _
      · rw [if_neg h]
        push_neg at h
        have hx' : x = vs.foldl min v := le_antisymm (h ▸ hmx) hmn
        rw [hx']
        norm_num
    calc (x - vs.foldl min v) /
          (if vs.foldl max v ≠ vs.foldl min v
            then vs.foldl max v - vs.foldl min v else 1) * 7
        ≤ 1 * 7 := by
          apply mul_le_mul_of_nonneg_right _ (by norm_num)
          exact (div_le_one hspan).mpr hle
      _ = 7 := by norm_num

lemma pyStrIndex_blocks {i : ℤ} (h0 : 0 ≤ i) (h8 : i < 8) :
    pyStrIndex blocks i = some (glyphAt i) := by
  interval_cases i <;> rfl

lemma render_cons (label : String) (v : ℚ) (vs : List ℚ) :
    Sparkline.render label (v :: vs) =
      some (.chart label
        (String.mk ((v :: vs).map fun x =>
          glyphAt ⌊(x - vs.foldl min v) /
            (if vs.foldl max v ≠ vs.foldl min v
              then vs.foldl max v - vs.foldl min v else 1) *
            ((blocks.length : ℚ) - 1)⌋))
        (vs.foldl min v) (vs.foldl max v)) := by
  have harg := spark_arg_bounds v vs
  have htrav : traverseOpt (pyStrIndex blocks)
      ((v :: vs).map fun x =>
        pyInt ((x - vs.foldl min v) /
          (if vs.foldl max v ≠ vs.foldl min v
            then vs.foldl max v - vs.foldl min v else 1) *
          ((blocks.length : ℚ) - 1))) =
      some (((v :: vs).map fun x =>
        pyInt ((x - vs.foldl min v) /
          (if vs.foldl max v ≠ vs.foldl min v
            then vs.foldl max v - vs.foldl min v else 1) *
          ((blocks.length : ℚ) - 1))).map glyphAt) := by
    apply traverseOpt_eq_some_map
    intro i hi
    obtain ⟨x, hx, rfl⟩ := List.mem_map.mp hi
    obtain ⟨h1, h2⟩ := harg x hx
    rw [pyInt_eq_floor h1]
    apply pyStrIndex_blocks
    · exact Int.le_floor.mpr (by exact_mod_cast h1)
    · have h3 : ⌊(x - vs.foldl min v) /
          (if vs.foldl max v ≠ vs.foldl min v
            then vs.foldl max v - vs.foldl min v else 1) *
          ((blocks.length : ℚ) - 1)⌋ ≤ ⌊(7 : ℚ)⌋ := Int.floor_le_floor h2
      have h4 : ⌊(7 : ℚ)⌋ = 7 := by norm_num
      omega
  have hmap : (((v :: vs).map fun x =>
      pyInt ((x - vs.foldl min v) /
        (if vs.foldl max v ≠ vs.foldl min v
          then vs.foldl max v - vs.foldl min v else 1) *
        ((blocks.length : ℚ) - 1))).map glyphAt) =
      ((v :: vs).map fun x =>
        glyphAt ⌊(x - vs.foldl min v) /
          (if vs.foldl max v ≠ vs.foldl min v
            then vs.foldl max v - vs.foldl min v else 1) *
          ((blocks.length : ℚ) - 1)⌋) := by
    rw [List.map_map]
    apply List.map_congr_left
    intro x hx
    simp only [Function.comp_apply]
    rw [pyInt_eq_floor (harg x hx).1]
  simp only [Sparkline.render]
  rw [htrav, hmap]
  rfl

lemma foldl_min_replicate (v : ℚ) : ∀ k, (List.replicate k v).foldl min v = v := by
  intro k
  induction k with
  | zero => rfl
  | succ n ih => simpa [List.replicate_succ, min_self] using ih

lemma foldl_max_replicate (v : ℚ) : ∀ k, (List.replicate k v).foldl max v = v := by
  intro k
  induction k with
  | zero => rfl
  | succ n ih => simpa [List.replicate_succ, max_self] using ih

end Tui

open Tui

/-- C6 (amended): for every input sequence, `Sparkline.render` returns the
fixed no-data placeholder on empty input (not an empty string and not an
error); on non-empty input it succeeds and each value maps to the bucket
index `⌊(value - min) / span * (bucket_count - 1)⌋` — the floor (Python
`int` truncation, which coincides with floor on these nonnegative
arguments), not `round` — over the 8-glyph ramp, with
`span = max - min if max ≠ min else 1`; a series whose values are all
equal renders as a constant lowest-glyph sequence rather than raising a
division error. -/
theorem sparkline_floor_characterization (label : String) :
    Sparkline.render label [] = some (.noData label) ∧
    (∀ (v : ℚ) (vs : List ℚ),
      Sparkline.render label (v :: vs) =
        some (.chart label
          (String.mk ((v :: vs).map fun x =>
            glyphAt ⌊(x - vs.foldl min v) /
              (if vs.foldl max v ≠ vs.foldl min v
                then vs.foldl max v - vs.foldl min v else 1) *
              ((blocks.length : ℚ) - 1)⌋))
          (vs.foldl min v) (vs.foldl max v))) ∧
    (∀ (v : ℚ) (n : ℕ), 0 < n →
      Sparkline.render label (List.replicate n v) =
        some (.chart label (String.mk (List.replicate n ' ')) v v)) := by
  refine ⟨rfl, render_cons label, ?_⟩
  intro v n hn
  obtain ⟨k, rfl⟩ : ∃ k, n = k + 1 := ⟨n - 1, by omega⟩
  rw [List.replicate_succ, render_cons, foldl_min_replicate, foldl_max_replicate]
  have h0 : ((v - v) / (if v ≠ v then v - v else 1) *
      ((blocks.length : ℚ) - 1)) = 0 := by
    simp
  simp only [← List.replicate_succ, List.map_replicate]
  rw [h0]
  norm_num [glyphAt, blocks]

/-- Witness for C6's amended theorem at the concrete flat input
`[5, 5, 5]`: three lowest glyphs, no error. -/
theorem sparkline_floor_characterization_witness :
    Sparkline.render "Price Trend" (List.replicate 3 (5 : ℚ)) =
      some (.chart "Price Trend" (String.mk (List.replicate 3 ' ')) 5 5) :=
  (sparkline_floor_characterization "Price Trend").2.2 5 3 (by norm_num)

/-- Counterexample for C6 as stated: on input `[0, 1, 10]` the source's
bucket derivation (Python `int`, i.e. floor here) yields `[0, 0, 7]`
while the claimed `round` formula yields `[0, 1, 7]` (the value `1` sits
at `0.7` of a bucket, which truncates to 0 but rounds to 1). -/
theorem sparkline_round_counterexample :
    sparkBuckets [0, 1, 10] = some [0, 0, 7] ∧
    sparkBucketsSpec [0, 1, 10] = some [0, 1, 7] ∧
    sparkBuckets [0, 1, 10] ≠ sparkBucketsSpec [0, 1, 10] := by
  have h1 : sparkBuckets [0, 1, 10] = some [0, 0, 7] := by
    norm_num [sparkBuckets, pyInt, min_def, max_def, blocks]
  have h2 : sparkBucketsSpec [0, 1, 10] = some [0, 1, 7] := by
    norm_num [sparkBucketsSpec, min_def, max_def, blocks, round_eq]
  refine ⟨h1, h2, ?_⟩
  rw [h1, h2]
  decide

/-- C7: the bucket derivation is monotone — a value sequence sorted in
ascending order yields a non-decreasing bucket sequence; concretely,
`[1, 5, 10]` yields the non-decreasing buckets `[0, 3, 7]`, and
`[10, 10, 10]` yields constant buckets `[0, 0, 0]` and renders as a
constant-glyph chart without a division error. -/
theorem sparkline_buckets_monotone :
    (∀ (values : List ℚ) (bs : List ℤ), values.Sorted (· ≤ ·) →
      sparkBuckets values = some bs → bs.Sorted (· ≤ ·)) ∧
    sparkBuckets [1, 5, 10] = some [0, 3, 7] ∧
    sparkBuckets [10, 10, 10] = some [0, 0, 0] ∧
    (∀ label : String,
      Sparkline.render label [10, 10, 10] =
        some (.chart label (String.mk [' ', ' ', ' ']) 10 10)) := by
  refine ⟨?_, ?_, ?_, ?_⟩
  · intro values bs hsort hbs
    cases values with
    | nil => simp [sparkBuckets] at hbs
    | cons v vs =>
      simp only [sparkBuckets, Option.some.injEq] at hbs
      subst hbs
      have hspan := spark_span_pos v vs
      apply List.Pairwise.map
      · intro a b hab
        apply pyInt_mono
        apply mul_le_mul_of_nonneg_right _ (by norm_num [blocks])
        exact (div_le_div_iff_of_pos_right hspan).mpr (sub_le_sub_right hab _)
      · exact hsort
  · norm_num [sparkBuckets, pyInt, min_def, max_def, blocks]
  · norm_num [sparkBuckets, pyInt, min_def, max_def, blocks]
  · intro label
    norm_num [Sparkline.render, pyInt, min_def, max_def, blocks,
      traverseOpt, pyStrIndex]

/-- Witness for C7: the ascending input `[1, 2, 10]` has buckets
`[0, 0, 7]`, which the theorem shows are sorted. -/
theorem sparkline_buckets_monotone_witness :
    ([0, 0, 7] : List ℤ).Sorted (· ≤ ·) :=
  sparkline_buckets_monotone.1 [1, 2, 10] [0, 0, 7]
    (by norm_num [List.sorted_cons])
    (by norm_num [sparkBuckets, pyInt, min_def, max_def, blocks])

namespace Tui

/-- An index snapshot as parsed by the dashboard (`IndexSnapshot` dataclass
in `src/tui/app.py`). -/
structure IndexSnapshot where
  name : String
  value : ℚ
  change_pct : ℚ
deriving DecidableEq, Repr

/-- A sector entry of the overview payload (`sector["sector"]`,
`sector["change_pct"]` reads in `MarketOverviewPanel.render`). -/
structure SectorPerformance where
  sector : String
  change_pct : ℚ
deriving DecidableEq, Repr

/-- The parsed market overview (`MarketOverview` dataclass in
`src/tui/app.py`). -/
structure MarketOverview where
  as_of : String
  indices : List IndexSnapshot
  advances : ℤ
  declines : ℤ
  sectors : List SectorPerformance
deriving DecidableEq, Repr

/-- The mutable state of `MarketOverviewPanel`: a `loading` flag
(initialized `True`) and the latest overview (initialized `None`). -/
structure OverviewPanelState where
  loading : Bool
  overview : Option MarketOverview
deriving DecidableEq, Repr

/-- One item of the `GET /api/stocks` payload as read by `load_stocks`. -/
structure StockListItem where
  ticker : String
  name : String
  price : ℚ
  daily_change_pct : ℚ
  trend : String
deriving DecidableEq, Repr

/-- One row of the stocks `DataTable` as added by `load_stocks`: the cell
data plus the styling color of the change cell and the row key. The
`₹`/percent decimal formatting of the price and change cells is
presentation and is carried as the underlying numbers. -/
structure StockRow where
  ticker : String
  name : String
  price : ℚ
  change_pct : ℚ
  changeColor : String
  trend : String
  key : String
deriving DecidableEq, Repr

/-- One item of the `GET /api/startups` payload as read by
`load_startups`. -/
structure StartupListItem where
  id : String
  name : String
  sector : String
  country : String
  description : String
  status : String
deriving DecidableEq, Repr

/-- One row of the startups `DataTable` as added by `load_startups`. -/
structure StartupRow where
  name : String
  sector : String
  country : String
  status : String
  statusColor : String
  description : String
  key : String
deriving DecidableEq, Repr

/-- The view state mutated by the refresh pipeline: the status bar string,
the overview panel, and the two tables (each table observable as its list
of rows). -/
structure AppState where
  status : String
  overviewPanel : OverviewPanelState
  stocksTable : List StockRow
  startupsTable : List StartupRow
deriving DecidableEq, Repr

/-- The app's state at mount: status "Idle" (the `StatusBar` reactive
default), overview panel loading with no data, both tables empty. -/
def initialState : AppState :=
  { status := "Idle"
    overviewPanel := { loading := true, overview := none }
    stocksTable := []
    startupsTable := [] }

/-- The row `load_stocks` adds for one payload item: ticker, name, price,
change (styled green when `change >= 0`, red otherwise), trend, keyed by
ticker. -/
def stockRow (item : StockListItem) : StockRow :=
  { ticker := item.ticker
    name := item.name
    price := item.price
    change_pct := item.daily_change_pct
    changeColor := if 0 ≤ item.daily_change_pct then "#22c55e" else "#ef4444"
    trend := item.trend
    key := item.ticker }

/-- The status-color lookup of `load_startups` (a dict `.get` with default
`"#94a3b8"`). -/
def status_color (s : String) : String :=
  if s = "Ignore" then "#94a3b8"
  else if s = "Watch" then "#f59e0b"
  else if s = "Interesting" then "#22c55e"
  else "#94a3b8"

/-- The row `load_startups` adds for one payload item, keyed by id. -/
def startupRow (item : StartupListItem) : StartupRow :=
  { name := item.name
    sector := item.sector
    country := item.country
    status := item.status
    statusColor := status_color item.status
    description := item.description
    key := item.id }

/-- The settled outcome of one category's fetch: a parsed payload on
success, or the exception's string (network error, bad status, decode or
key error — all caught by the same `except Exception`) on failure. -/
inductive FetchOutcome (α : Type) where
  | success (payload : α)
  | failure (exc : String)
deriving DecidableEq, Repr

/-- The three settled outcomes of one refresh cycle's fetches. -/
structure CycleOutcomes where
  overview : FetchOutcome MarketOverview
  stocks : FetchOutcome (List StockListItem)
  startups : FetchOutcome (List StartupListItem)
deriving DecidableEq, Repr

/-- The pre-await prologue of `load_market_overview`: set the panel's
loading flag (and refresh the display). -/
def load_market_overview_start (st : AppState) : AppState :=
  { st with overviewPanel := { st.overviewPanel with loading := true } }

/-- The post-await part of `load_market_overview`: on success store the
freshly constructed overview; on failure clear it and overwrite the status
with the category error string; either way the `finally` clears the
loading flag. -/
def load_market_overview_finish (st : AppState)
    (o : FetchOutcome MarketOverview) : AppState :=
  match o with
  | .success ov =>
    { st with overviewPanel := { loading := false, overview := some ov } }
  | .failure exc =>
    { st with overviewPanel := { loading := false, overview := none }
              status := "Overview error: " ++ exc }

/-- The pre-await prologue of `load_stocks`: clear the table. -/
def load_stocks_start (st : AppState) : AppState :=
  { st with stocksTable := [] }

/-- The post-await part of `load_stocks`: on success add one row per
payload item; on failure overwrite the status with the category error
string (the table stays cleared). -/
def load_stocks_finish (st : AppState)
    (o : FetchOutcome (List StockListItem)) : AppState :=
  match o with
  | .success items => { st with stocksTable := items.map stockRow }
  | .failure exc => { st with status := "Stocks error: " ++ exc }

/-- The pre-await prologue of `load_startups`: clear the table. -/
def load_startups_start (st : AppState) : AppState :=
  { st with startupsTable := [] }

/-- The post-await part of `load_startups`. -/
def load_startups_finish (st : AppState)
    (o : FetchOutcome (List StartupListItem)) : AppState :=
  match o with
  | .success items => { st with startupsTable := items.map startupRow }
  | .failure exc => { st with status := "Startups error: " ++ exc }

/-- The three fetch categories launched by `load_data`'s
`asyncio.gather`. -/
inductive Category where
  | overview
  | stocks
  | startups
deriving DecidableEq, Repr

/-- One observable step of a refresh cycle on the single-threaded event
loop: the status write that precedes the gather, the three task prologues
(each coroutine runs to its first await when the gather schedules it), a
category's settle (its result applied by its own coroutine), and the
status write after the gather returns. -/
inductive CycleEvent where
  | setFetching
  | start (c : Category)
  | settle (c : Category)
  | setReady
deriving DecidableEq, Repr

/-- State transition of one cycle event (`load_data` and the three
`load_*` coroutines of `src/tui/app.py`). -/
def runEvent (oc : CycleOutcomes) (st : AppState) (e : CycleEvent) : AppState :=
  match e with
  | .setFetching => { st with status := "Fetching data" }
  | .start .overview => load_market_overview_start st
  | .start .stocks => load_stocks_start st
  | .start .startups => load_startups_start st
  | .settle .overview => load_market_overview_finish st oc.overview
  | .settle .stocks => load_stocks_finish st oc.stocks
  | .settle .startups => load_startups_finish st oc.startups
  | .setReady => { st with status := "Ready" }

/-- The event sequence of one refresh cycle: status to "Fetching data",
then the gather schedules the three coroutines in argument order (each
runs its prologue up to its first await), then the coroutines settle in
network-arrival order (`order`, some permutation of the three categories),
then the gather returns and the status is set to "Ready". -/
def cycleEvents (order : List Category) : List CycleEvent :=
  .setFetching :: .start .overview :: .start .stocks :: .start .startups ::
    (order.map .settle ++ [.setReady])

/-- All intermediate states of one refresh cycle (including the initial
state), in event order. -/
def cycleTrace (oc : CycleOutcomes) (order : List Category)
    (st : AppState) : List AppState :=
  (cycleEvents order).scanl (runEvent oc) st

/-- `load_data` of `src/tui/app.py`: the final state after one refresh
cycle whose fetches settle in `order`. -/
def load_data (oc : CycleOutcomes) (order : List Category)
    (st : AppState) : AppState :=
  (cycleEvents order).foldl (runEvent oc) st

/-- The final state a completed cycle determines, as a function of the
outcomes alone: status "Ready", overview panel settled per its outcome,
each table holding the fetched rows on success and left cleared on
failure. -/
def cycleResult (oc : CycleOutcomes) : AppState :=
  { status := "Ready"
    overviewPanel :=
      match oc.overview with
      | .success ov => { loading := false, overview := some ov }
      | .failure _ => { loading := false, overview := none }
    stocksTable :=
      match oc.stocks with
      | .success items => items.map stockRow
      | .failure _ => []
    startupsTable :=
      match oc.startups with
      | .success items => items.map startupRow
      | .failure _ => [] }

/-- The three-way per-category view state of the spec's data model. -/
inductive CatState where
  | notYetLoaded
  | loaded
  | loadFailed
deriving DecidableEq, Repr

/-- Classification of the market-overview category's state: loading flag
raised means not yet (re)loaded, otherwise the presence of an overview
separates loaded from load-failed. -/
def overviewState (p : OverviewPanelState) : CatState :=
  if p.loading then .notYetLoaded
  else if p.overview.isSome then .loaded
  else .loadFailed

/-- `MarketOverviewPanel.render` of `src/tui/app.py`, as the list of text
lines produced: the fixed loading line while `loading`, the fixed no-data
line when there is no overview, otherwise the header, one line per index,
the advance/decline line, the heatmap title and one line per sector.
`fmtVal` and `fmtPct` abstract the Python numeric display formats
(`:,.2f` and `:+.2f`). -/
def MarketOverviewPanel.render (fmtVal fmtPct : ℚ → String)
    (p : OverviewPanelState) : List String :=
  if p.loading then ["Loading market overview..."]
  else
    match p.overview with
    | none => ["No market overview data."]
    | some ov =>
      ("Market Overview (as of " ++ ov.as_of ++ ")") ::
        (ov.indices.map fun ix =>
          ix.name ++ ": " ++ fmtVal ix.value ++ " (" ++ fmtPct ix.change_pct ++ "%)") ++
        ["Advance/Decline: " ++ toString ov.advances ++ " / " ++ toString ov.declines,
         "Sector Heatmap:"] ++
        (ov.sectors.map fun s => "- " ++ s.sector ++ ": " ++ fmtPct s.change_pct ++ "%")

end Tui

namespace Tui

/-- Sample overview payload for witnesses and counterexamples. -/
def sampleOverview : MarketOverview :=
  { as_of := "2024-05-01 15:30 IST"
    indices := [{ name := "NIFTY 50", value := 22000, change_pct := 1 }]
    advances := 30
    declines := 20
    sectors := [{ sector := "IT", change_pct := 2 }] }

/-- Sample stock-list payload for witnesses and counterexamples. -/
def sampleStocks : List StockListItem :=
  [{ ticker := "RELIANCE", name := "Reliance Industries", price := 2870,
     daily_change_pct := 1, trend := "Up" }]

/-- Sample startup-list payload for witnesses and counterexamples. -/
def sampleStartups : List StartupListItem :=
  [{ id := "airship-ml", name := "Airship ML", sector := "AI", country := "India",
     description := "Applied ML tooling", status := "Watch" }]

/-- A cycle whose three fetches all succeed, on the sample payloads. -/
def sampleOutcomesAllSuccess : CycleOutcomes :=
  { overview := .success sampleOverview
    stocks := .success sampleStocks
    startups := .success sampleStartups }

lemma load_data_perm_eq (oc : CycleOutcomes) (order : List Category)
    (st : AppState)
    (h : order.Perm [.overview, .stocks, .startups]) :
    load_data oc order st = cycleResult oc := by
  have hlen : order.length = 3 := h.length_eq
  obtain ⟨a, b, c, rfl⟩ : ∃ a b c, order = [a, b, c] := by
    match order, hlen with
    | [a, b, c], _ => exact ⟨a, b, c, rfl⟩
  rcases oc with ⟨o, s, t⟩
  cases a <;> cases b <;> cases c <;>
    first
      | exact absurd h (by decide)
      | (cases o <;> cases s <;> cases t <;> rfl)

end Tui

/-- C1: in any refresh cycle whose market-overview fetch fails and whose
stock-list fetch succeeds (whatever the startups outcome and the settle
order), the completed cycle leaves the market-overview category in the
load-failed state — not in not-yet-loaded — and the stocks table holds
exactly the fetched rows: one category's failure neither blocks nor
corrupts another category's successful update. -/
theorem refresh_failure_isolated (st : Tui.AppState)
    (order : List Tui.Category) (exc : String)
    (items : List Tui.StockListItem)
    (sout : Tui.FetchOutcome (List Tui.StartupListItem))
    (h : order.Perm [.overview, .stocks, .startups]) :
    Tui.overviewState
        (Tui.load_data ⟨.failure exc, .success items, sout⟩ order st).overviewPanel =
      .loadFailed ∧
    Tui.overviewState
        (Tui.load_data ⟨.failure exc, .success items, sout⟩ order st).overviewPanel ≠
      .notYetLoaded ∧
    (Tui.load_data ⟨.failure exc, .success items, sout⟩ order st).stocksTable =
      items.map Tui.stockRow := by
  rw [Tui.load_data_perm_eq _ _ _ h]
  refine ⟨rfl, by simp [Tui.cycleResult, Tui.overviewState], ?_⟩
  cases sout <;> rfl

/-- Witness for C1 at a concrete cycle: overview fetch fails with "boom",
stocks and startups succeed on the sample payloads. -/
theorem refresh_failure_isolated_witness :
    Tui.overviewState
        (Tui.load_data ⟨.failure "boom", .success Tui.sampleStocks,
            .success Tui.sampleStartups⟩
          [.overview, .stocks, .startups] Tui.initialState).overviewPanel =
      .loadFailed ∧
    Tui.overviewState
        (Tui.load_data ⟨.failure "boom", .success Tui.sampleStocks,
            .success Tui.sampleStartups⟩
          [.overview, .stocks, .startups] Tui.initialState).overviewPanel ≠
      .notYetLoaded ∧
    (Tui.load_data ⟨.failure "boom", .success Tui.sampleStocks,
          .success Tui.sampleStartups⟩
        [.overview, .stocks, .startups] Tui.initialState).stocksTable =
      Tui.sampleStocks.map Tui.stockRow :=
  refresh_failure_isolated Tui.initialState [.overview, .stocks, .startups]
    "boom" Tui.sampleStocks (.success Tui.sampleStartups) (List.Perm.refl _)

/-- C2 (amended): the orchestrator launches all fetches and suspends until
every one has settled before finishing the cycle, but each category's
result is applied by its own coroutine when that category settles —
possibly before the others settle (see the counterexample) — and the
completed cycle's final state is independent of the settle order and
equals applying the full batch of outcomes at once. -/
theorem refresh_batch_equivalent_final_state (oc : Tui.CycleOutcomes)
    (st : Tui.AppState) (order1 order2 : List Tui.Category)
    (h1 : order1.Perm [.overview, .stocks, .startups])
    (h2 : order2.Perm [.overview, .stocks, .startups]) :
    Tui.load_data oc order1 st = Tui.load_data oc order2 st ∧
    Tui.load_data oc order1 st = Tui.cycleResult oc := by
  rw [Tui.load_data_perm_eq _ _ _ h1, Tui.load_data_perm_eq _ _ _ h2]
  exact ⟨rfl, rfl⟩

/-- Witness for C2's amended theorem at two concrete settle orders. -/
theorem refresh_batch_equivalent_final_state_witness :
    Tui.load_data Tui.sampleOutcomesAllSuccess
        [.stocks, .startups, .overview] Tui.initialState =
      Tui.load_data Tui.sampleOutcomesAllSuccess
        [.overview, .stocks, .startups] Tui.initialState ∧
    Tui.load_data Tui.sampleOutcomesAllSuccess
        [.stocks, .startups, .overview] Tui.initialState =
      Tui.cycleResult Tui.sampleOutcomesAllSuccess :=
  refresh_batch_equivalent_final_state Tui.sampleOutcomesAllSuccess
    Tui.initialState [.stocks, .startups, .overview]
    [.overview, .stocks, .startups] (by decide) (List.Perm.refl _)

/-- Counterexample for C2 as stated: in the cycle whose fetches settle in
the (legitimate) order stocks, startups, overview, the trace state right
after the stocks fetch settles (index 5: initial, set-fetching, three
prologues, stocks settle) already holds the freshly fetched stock rows
while the overview fetch has not yet settled (its loading flag is still
raised) — a category's result is applied before the full batch settles. -/
theorem refresh_partial_application_counterexample :
    [Tui.Category.stocks, Tui.Category.startups, Tui.Category.overview].Perm
      [Tui.Category.overview, Tui.Category.stocks, Tui.Category.startups] ∧
    (Tui.cycleTrace Tui.sampleOutcomesAllSuccess
        [.stocks, .startups, .overview] Tui.initialState).get? 5 =
      some { status := "Fetching data"
             overviewPanel := { loading := true, overview := none }
             stocksTable := Tui.sampleStocks.map Tui.stockRow
             startupsTable := [] } ∧
    Tui.sampleStocks.map Tui.stockRow ≠ [] := by
  refine ⟨by decide, rfl, ?_⟩
  simp [Tui.sampleStocks]

/-- C3 (amended): in every cycle the status is set to "Fetching data"
(before any category update, which only happens at later settle events);
when a category's fetch fails, its settle step overwrites the status with
that category's error string; and after the cycle completes the status is
unconditionally "Ready" — also when categories failed (the transient
error string is overwritten; see the counterexample). -/
theorem refresh_status_lifecycle (oc : Tui.CycleOutcomes)
    (order : List Tui.Category) (st : Tui.AppState) :
    (Tui.cycleTrace oc order st).get? 1 =
      some { st with status := "Fetching data" } ∧
    (Tui.load_data oc order st).status = "Ready" ∧
    (∀ (exc : String) (s : Tui.AppState), oc.overview = .failure exc →
      (Tui.runEvent oc s (.settle .overview)).status = "Overview error: " ++ exc) ∧
    (∀ (exc : String) (s : Tui.AppState), oc.stocks = .failure exc →
      (Tui.runEvent oc s (.settle .stocks)).status = "Stocks error: " ++ exc) ∧
    (∀ (exc : String) (s : Tui.AppState), oc.startups = .failure exc →
      (Tui.runEvent oc s (.settle .startups)).status = "Startups error: " ++ exc) := by
  refine ⟨rfl, ?_, ?_, ?_, ?_⟩
  · have h : Tui.cycleEvents order =
        ([.setFetching, .start .overview, .start .stocks, .start .startups] ++
          order.map .settle) ++ [.setReady] := by
      simp [Tui.cycleEvents]
    unfold Tui.load_data
    rw [h, List.foldl_append]
    rfl
  · intro exc s hexc
    simp [Tui.runEvent, Tui.load_market_overview_finish, hexc]
  · intro exc s hexc
    simp [Tui.runEvent, Tui.load_stocks_finish, hexc]
  · intro exc s hexc
    simp [Tui.runEvent, Tui.load_startups_finish, hexc]

/-- Witness for C3's amended theorem: at a concrete cycle whose overview
fetch fails with "boom", the overview settle step writes the
category-specific error status. -/
theorem refresh_status_lifecycle_witness :
    (Tui.runEvent ⟨.failure "boom", .success Tui.sampleStocks,
        .success Tui.sampleStartups⟩ Tui.initialState
      (.settle .overview)).status = "Overview error: " ++ "boom" :=
  (refresh_status_lifecycle
      ⟨.failure "boom", .success Tui.sampleStocks, .success Tui.sampleStartups⟩
      [.overview, .stocks, .startups] Tui.initialState).2.2.1 "boom"
    Tui.initialState rfl

/-- Counterexample for C3 as stated: in a completed cycle where the
overview fetch failed, the post-cycle status is "Ready", not the
category-specific error string — `load_data` overwrites the error status
once the gather returns. -/
theorem refresh_status_ready_after_failure_counterexample :
    (Tui.load_data ⟨.failure "boom", .success Tui.sampleStocks,
          .success Tui.sampleStartups⟩
        [.overview, .stocks, .startups] Tui.initialState).status = "Ready" ∧
    ("Ready" : String) ≠ "Overview error: boom" := by
  exact ⟨rfl, by decide⟩

/-- C9: refresh is idempotent — running a second cycle with the same
settled outcomes (an unchanged backing data source) leaves the view state
exactly as after the first cycle, for any settle orders; in fact the whole
post-cycle state (status string included, which carries no timestamp) is
a function of the outcomes alone. -/
theorem refresh_idempotent (oc : Tui.CycleOutcomes) (st : Tui.AppState)
    (order1 order2 : List Tui.Category)
    (h1 : order1.Perm [.overview, .stocks, .startups])
    (h2 : order2.Perm [.overview, .stocks, .startups]) :
    Tui.load_data oc order2 (Tui.load_data oc order1 st) =
      Tui.load_data oc order1 st := by
  rw [Tui.load_data_perm_eq _ _ _ h1, Tui.load_data_perm_eq _ _ _ h2]

/-- Witness for C9 at a concrete all-success cycle run twice. -/
theorem refresh_idempotent_witness :
    Tui.load_data Tui.sampleOutcomesAllSuccess [.overview, .stocks, .startups]
        (Tui.load_data Tui.sampleOutcomesAllSuccess
          [.overview, .stocks, .startups] Tui.initialState) =
      Tui.load_data Tui.sampleOutcomesAllSuccess
        [.overview, .stocks, .startups] Tui.initialState :=
  refresh_idempotent Tui.sampleOutcomesAllSuccess Tui.initialState
    [.overview, .stocks, .startups] [.overview, .stocks, .startups]
    (List.Perm.refl _) (List.Perm.refl _)

/-- C5 (amended): each category's view state is in exactly one of the
three states (the classification is a total function of the panel state),
and for the market-overview category the renderer distinguishes all three
— any two panel states in different states render differently, for every
numeric formatting; but for the stock-list category the table rendering
collapses not-yet-loaded and load-failed: after any completed cycle whose
stock fetch failed, the table shows exactly the rows it shows before any
load (the empty table). -/
theorem view_state_tristate_distinguishable :
    (∀ (fmtVal fmtPct : ℚ → String) (p q : Tui.OverviewPanelState),
      Tui.overviewState p ≠ Tui.overviewState q →
      Tui.MarketOverviewPanel.render fmtVal fmtPct p ≠
        Tui.MarketOverviewPanel.render fmtVal fmtPct q) ∧
    (∀ (oco : Tui.FetchOutcome Tui.MarketOverview)
       (ost : Tui.FetchOutcome (List Tui.StartupListItem))
       (exc : String) (order : List Tui.Category),
      order.Perm [.overview, .stocks, .startups] →
      (Tui.load_data ⟨oco, .failure exc, ost⟩ order Tui.initialState).stocksTable =
        Tui.initialState.stocksTable) := by
  constructor
  · intro fmtVal fmtPct p q hne hr
    rcases p with ⟨pl, pov⟩
    rcases q with ⟨ql, qov⟩
    cases pl <;> cases ql <;>
      rcases pov with _ | ovp <;> rcases qov with _ | ovq <;>
      first
        | (exact hne rfl)
        | (have hlen := congrArg List.length hr
           simp [Tui.MarketOverviewPanel.render] at hlen
           omega)
        | (simp [Tui.MarketOverviewPanel.render] at hr)
  · intro oco ost exc order h
    rw [Tui.load_data_perm_eq _ _ _ h]
    cases ost <;> rfl

/-- Witness for C5's amended theorem: the renderer separates the initial
not-yet-loaded overview panel from the load-failed one. -/
theorem view_state_tristate_distinguishable_witness :
    Tui.MarketOverviewPanel.render (fun _ => "") (fun _ => "")
        { loading := true, overview := none } ≠
      Tui.MarketOverviewPanel.render (fun _ => "") (fun _ => "")
        { loading := false, overview := none } :=
  view_state_tristate_distinguishable.1 (fun _ => "") (fun _ => "")
    { loading := true, overview := none }
    { loading := false, overview := none } (by decide)

/-- Counterexample for C5 as stated: the stock-list category's rendering
does not distinguish load-failed from not-yet-loaded — after a completed
cycle whose stock fetch failed, the stocks table content is identical to
the never-loaded initial content (the empty table), while the global
status even reads "Ready". -/
theorem stock_list_state_collapse_counterexample :
    (Tui.load_data ⟨.success Tui.sampleOverview, .failure "boom",
          .success Tui.sampleStartups⟩
        [.overview, .stocks, .startups] Tui.initialState).stocksTable =
      Tui.initialState.stocksTable ∧
    (Tui.load_data ⟨.success Tui.sampleOverview, .failure "boom",
          .success Tui.sampleStartups⟩
        [.overview, .stocks, .startups] Tui.initialState).status = "Ready" :=
  ⟨rfl, rfl⟩

namespace Tui

/-- One point of a detail-series bucket as read by `update_stock`. -/
structure PricePoint where
  date : String
  price : ℚ
deriving DecidableEq, Repr

/-- The `"series"` object of a detail payload: keys `"one_month"`,
`"six_month"`, `"one_year"`, each possibly absent (read with
`.get(series_key, [])`). -/
structure SeriesDict where
  one_month : Option (List PricePoint)
  six_month : Option (List PricePoint)
  one_year : Option (List PricePoint)
deriving DecidableEq, Repr

/-- A stock-detail JSON payload as consumed by
`StockDetailView.update_stock`. -/
structure StockDetailJson where
  name : String
  ticker : String
  price : ℚ
  market_cap : String
  pe : ℚ
  trend : String
  series : SeriesDict
deriving DecidableEq, Repr

/-- The `tf_map` dict lookup of `update_stock`
(`\x7b"1M": "one_month", "6M": "six_month", "1Y": "one_year"\x7d.get`). -/
def tf_map (tf : String) : Option String :=
  if tf = "1M" then some "one_month"
  else if tf = "6M" then some "six_month"
  else if tf = "1Y" then some "one_year"
  else none

/-- `stock["series"].get(series_key, [])` of `update_stock`. -/
def seriesGet (d : SeriesDict) (key : String) : List PricePoint :=
  if key = "one_month" then d.one_month.getD []
  else if key = "six_month" then d.six_month.getD []
  else if key = "one_year" then d.one_year.getD []
  else []

/-- The content of the detail pane's text widget: initially empty, then
either the detail lines of a stock (the name/price/cap/PE/trend lines,
carried structurally) or an inline failure message. -/
inductive DetailText where
  | empty
  | details (stock : StockDetailJson)
  | failed (msg : String)
deriving DecidableEq, Repr

/-- The mutable state of `StockDetailView`: text widget, sparkline label
and values, the current stock and the selected timeframe. -/
structure StockDetailViewState where
  text : DetailText
  sparkLabel : String
  sparkValues : List ℚ
  current_stock : Option StockDetailJson
  timeframe : String
deriving DecidableEq, Repr

/-- `StockDetailView.__init__`: empty text, sparkline `[]` labelled
"Price Trend", no current stock, timeframe "6M". -/
def initStockDetailView : StockDetailViewState :=
  { text := .empty
    sparkLabel := "Price Trend"
    sparkValues := []
    current_stock := none
    timeframe := "6M" }

/-- `StockDetailView.update_stock` of `src/tui/app.py`: store the stock
and timeframe, select the timeframe's series bucket (defaulting to
`"six_month"` for an unknown key, empty list for a missing bucket), and
update the text, sparkline label and sparkline values. -/
def update_stock (view : StockDetailViewState) (stock : StockDetailJson)
    (timeframe : String) : StockDetailViewState :=
  let series_key := (tf_map timeframe).getD "six_month"
  let values := (seriesGet stock.series series_key).map (·.price)
  { view with
      text := .details stock
      sparkLabel := timeframe ++ " Price Trend"
      sparkValues := values
      current_stock := some stock
      timeframe := timeframe }

/-- `TerminalApp.render_stock_detail`: on fetch failure replace the pane
text with the inline error and clear the sparkline (list view untouched);
on success apply `update_stock` with the default "6M" timeframe. The
result is applied unconditionally — there is no check that `ticker` is
still the current selection. -/
def render_stock_detail (view : StockDetailViewState) (ticker : String)
    (outcome : FetchOutcome StockDetailJson) : StockDetailViewState :=
  match outcome with
  | .failure exc =>
    { view with
        text := .failed ("Failed to load " ++ ticker ++ ": " ++ exc)
        sparkValues := [] }
  | .success stock => update_stock view stock "6M"

/-- The detail pane state after a sequence of row selections, each paired
with the settled outcome of the detail fetch it triggers. Textual's
message pump dequeues one message at a time and awaits each handler to
completion before dequeuing the next, so each `show_stock_detail` handler
(`@on(DataTable.RowHighlighted)`, which awaits `render_stock_detail`
inline) issues its detail fetch, awaits it and applies the response
before the next selection's handler runs: at most one detail fetch is in
flight at a time, and responses are applied serially in selection
order. -/
def processSelections (view : StockDetailViewState)
    (selections : List (String × FetchOutcome StockDetailJson)) :
    StockDetailViewState :=
  selections.foldl (fun v s => render_stock_detail v s.1 s.2) view

/-- Sample detail payload for ticker RELIANCE. -/
def detailStockA : StockDetailJson :=
  { name := "Reliance Industries", ticker := "RELIANCE", price := 2870,
    market_cap := "19.4L Cr", pe := 28, trend := "Up",
    series := { one_month := none,
                six_month := some [{ date := "2024-01", price := 2800 }],
                one_year := none } }

/-- Sample detail payload for ticker TCS. -/
def detailStockB : StockDetailJson :=
  { name := "Tata Consultancy Services", ticker := "TCS", price := 3900,
    market_cap := "14.1L Cr", pe := 30, trend := "Flat",
    series := { one_month := none,
                six_month := some [{ date := "2024-01", price := 3800 }],
                one_year := none } }

end Tui

/-- C4: last-selection-wins holds. Because Textual awaits each
`RowHighlighted` handler before dequeuing the next, a detail fetch for a
newer selection is only issued after the prior selection's fetch has
resolved and been applied, so after any sequence of selections ending
with a selection of B whose fetch succeeds, the rendered detail pane
shows B's data — and not the data of any other stock A, however the
earlier fetches (A's included) settled. -/
theorem detail_last_selection_wins (view : Tui.StockDetailViewState)
    (prior : List (String × Tui.FetchOutcome Tui.StockDetailJson))
    (tB : String) (sB : Tui.StockDetailJson) :
    (Tui.processSelections view
        (prior ++ [(tB, .success sB)])).current_stock = some sB ∧
    (Tui.processSelections view
        (prior ++ [(tB, .success sB)])).text = .details sB ∧
    (∀ sA : Tui.StockDetailJson, sA ≠ sB →
      (Tui.processSelections view
          (prior ++ [(tB, .success sB)])).current_stock ≠ some sA ∧
      (Tui.processSelections view
          (prior ++ [(tB, .success sB)])).text ≠ .details sA) := by
  have h : Tui.processSelections view (prior ++ [(tB, .success sB)]) =
      Tui.update_stock (Tui.processSelections view prior) sB "6M" := by
    unfold Tui.processSelections
    rw [List.foldl_append]
    rfl
  refine ⟨by rw [h]; rfl, by rw [h]; rfl, ?_⟩
  intro sA hne
  rw [h]
  constructor
  · intro hc
    exact hne (Option.some_injective _ hc).symm
  · intro hc
    injection hc with h'
    exact hne h'.symm

/-- Witness for C4: selecting RELIANCE then TCS, with both fetches
succeeding serially, leaves the pane showing TCS's data and not
RELIANCE's. -/
theorem detail_last_selection_wins_witness :
    (Tui.processSelections Tui.initStockDetailView
        [("RELIANCE", .success Tui.detailStockA),
         ("TCS", .success Tui.detailStockB)]).current_stock =
      some Tui.detailStockB ∧
    (Tui.processSelections Tui.initStockDetailView
        [("RELIANCE", .success Tui.detailStockA),
         ("TCS", .success Tui.detailStockB)]).current_stock ≠
      some Tui.detailStockA :=
  have h := detail_last_selection_wins Tui.initStockDetailView
    [("RELIANCE", .success Tui.detailStockA)] "TCS" Tui.detailStockB
  ⟨h.1,
    (h.2.2 Tui.detailStockA
      (fun he => absurd (congrArg Tui.StockDetailJson.ticker he) (by decide))).1⟩
